import Mathlib

/-!
Verification of the jamstats scoreboard-ingestion pipeline.

This file gives a shallow embedding, in Lean, of the parts of the
jamstats code base that the specification's testable properties talk
about:

* the derived-field calculator of `extract_jam_data`
  (src/jamstats/data/json_to_pandas.py, lines 194-222);
* the jam-table builder `build_jam_dataframe` / `extract_nonteam_jam_data`
  and the team-jam field selection of `process_team_jam_info`;
* the penalty extractor `extract_penalties` and
  `build_penalty_code_name_map`;
* the jammer-summary builder `DerbyGame.build_team_jammersummary_df`
  (src/jamstats/data/game_data.py, lines 211-294) and the team-color
  resolution of `DerbyGame.__init__`;
* the TSV writer/readers of src/jamstats/io/tsv_io.py;
* the websocket message handler `ScoreboardClient.on_message` of
  src/jamstats/io/scoreboard_server_io.py.

Python dictionaries are modelled as insertion-ordered association
lists with unique keys; pandas dataframes as lists of rows; raising
Python code as `Except`-valued functions.  Each claim of the
specification is then stated and settled as a theorem about these
definitions.
-/

namespace Jamstats

/-! ### Derived-field calculator (json_to_pandas.extract_jam_data, lines 194-222)

A merged per-jam row carries, for each team, the jam score, the
calloff flag, the lead flag and the first-scoring-pass duration
(seconds, exact rationals in the model).  `extract_jam_data` appends
the derived columns net_points_1/2, Calloff_any, time_to_lead and
team_with_lead. -/

/-- One row of the merged per-jam table, restricted to the columns the
derived-field calculator reads. -/
structure MergedJamRow where
  jamScore1 : Int
  jamScore2 : Int
  calloff1 : Bool
  calloff2 : Bool
  lead1 : Bool
  lead2 : Bool
  fspd1 : Rat
  fspd2 : Rat
  deriving DecidableEq, Repr, Inhabited

/-- A merged per-jam row together with the derived columns appended by
`extract_jam_data`. -/
structure DerivedJamRow where
  base : MergedJamRow
  netPoints1 : Int
  netPoints2 : Int
  calloffAny : Bool
  timeToLead : Option Rat
  teamWithLead : Option Nat
  deriving DecidableEq, Repr, Inhabited

/-- The derived-field block of `extract_jam_data` (json_to_pandas.py
lines 194-222): net points as the score differential, Calloff_any as
the boolean or, and the time-to-lead / team-with-lead loop with its
if Lead_1 / elif Lead_2 structure. -/
def extractJamDerived (rows : List MergedJamRow) : List DerivedJamRow :=
  rows.map fun r =>
    { base := r
      netPoints1 := r.jamScore1 - r.jamScore2
      netPoints2 := -(r.jamScore1 - r.jamScore2)
      calloffAny := r.calloff1 || r.calloff2
      timeToLead :=
        if r.lead1 then some r.fspd1
        else if r.lead2 then some r.fspd2
        else none
      teamWithLead :=
        if r.lead1 then some 1
        else if r.lead2 then some 2
        else none }

/-- The statement of claim C2 exactly as the specification words it:
the three derived-field identities hold for every row, and the
identity JamScore_1 + (-net_points_1) == JamScore_2 must NOT hold in
general. -/
def ClaimC2Statement : Prop :=
  (∀ rows : List MergedJamRow, ∀ d ∈ extractJamDerived rows,
      d.netPoints1 = d.base.jamScore1 - d.base.jamScore2 ∧
      d.netPoints2 = -d.netPoints1 ∧
      d.calloffAny = (d.base.calloff1 || d.base.calloff2)) ∧
  ¬ (∀ rows : List MergedJamRow, ∀ d ∈ extractJamDerived rows,
      d.base.jamScore1 + (-d.netPoints1) = d.base.jamScore2)

/-- C2 (counterexample): the claim as stated is false.  Its final
conjunct demands that JamScore_1 + (-net_points_1) == JamScore_2 fail
on some row, but with net_points_1 = JamScore_1 - JamScore_2 the
identity holds for every row of every table, so the conjunct is
unsatisfiable. -/
theorem c2_spec_identity_counterexample : ¬ ClaimC2Statement := by
  intro h
  apply h.2
  intro rows d hd
  simp only [extractJamDerived, List.mem_map] at hd
  obtain ⟨r, _, rfl⟩ := hd
  simp

/-- C2 (amended): for every row of the merged per-jam table,
net_points_1 = JamScore_1 - JamScore_2, net_points_2 = -net_points_1
and Calloff_any = Calloff_1 OR Calloff_2; moreover the identity
JamScore_1 + (-net_points_1) = JamScore_2 also holds on every row
(the spec's "must not hold in general" clause is dropped, since it is
arithmetically impossible alongside the first identity). -/
theorem c2_derived_field_identities (rows : List MergedJamRow)
    (d : DerivedJamRow) (hd : d ∈ extractJamDerived rows) :
    d.netPoints1 = d.base.jamScore1 - d.base.jamScore2 ∧
    d.netPoints2 = -d.netPoints1 ∧
    d.calloffAny = (d.base.calloff1 || d.base.calloff2) ∧
    d.base.jamScore1 + (-d.netPoints1) = d.base.jamScore2 := by
  simp only [extractJamDerived, List.mem_map] at hd
  obtain ⟨r, _, rfl⟩ := hd
  refine ⟨rfl, rfl, rfl, by simp⟩

/-- A concrete one-row merged table used by the witnesses below. -/
def c2Row : MergedJamRow :=
  { jamScore1 := 5, jamScore2 := 3, calloff1 := true, calloff2 := false,
    lead1 := true, lead2 := false, fspd1 := 4, fspd2 := 7 }

/-- C2 (witness): the amended theorem applied to a concrete one-row
table with JamScore_1 = 5, JamScore_2 = 3. -/
theorem c2_derived_field_identities_witness :
    ∃ d ∈ extractJamDerived [c2Row],
      d.netPoints1 = d.base.jamScore1 - d.base.jamScore2 ∧
      d.netPoints2 = -d.netPoints1 ∧
      d.calloffAny = (d.base.calloff1 || d.base.calloff2) ∧
      d.base.jamScore1 + (-d.netPoints1) = d.base.jamScore2 :=
  ⟨(extractJamDerived [c2Row]).headI, by simp [extractJamDerived],
    c2_derived_field_identities [c2Row] _ (by simp [extractJamDerived])⟩

/-- C3: for every derived row, if Lead_1 is set then team_with_lead is
1 and time_to_lead is first_scoring_pass_durations_1 (team 1 wins even
if Lead_2 is also set); otherwise if Lead_2 is set the fields come
from team 2; if neither lead flag is set both derived fields are
null. -/
theorem c3_team_with_lead_tiebreak (rows : List MergedJamRow)
    (d : DerivedJamRow) (hd : d ∈ extractJamDerived rows) :
    (d.base.lead1 = true →
      d.teamWithLead = some 1 ∧ d.timeToLead = some d.base.fspd1) ∧
    (d.base.lead1 = false → d.base.lead2 = true →
      d.teamWithLead = some 2 ∧ d.timeToLead = some d.base.fspd2) ∧
    (d.base.lead1 = false → d.base.lead2 = false →
      d.teamWithLead = none ∧ d.timeToLead = none) := by
  simp only [extractJamDerived, List.mem_map] at hd
  obtain ⟨r, _, rfl⟩ := hd
  refine ⟨fun h1 => ?_, fun h1 h2 => ?_, fun h1 h2 => ?_⟩ <;> simp_all

/-- A concrete merged row with both lead flags set and a 4.2-second
first scoring pass for team 1, used by the C3 witness. -/
def c3Row : MergedJamRow :=
  { jamScore1 := 4, jamScore2 := 0, calloff1 := true, calloff2 := false,
    lead1 := true, lead2 := true, fspd1 := 21/5, fspd2 := 9 }

/-- C3 (witness): the tie-break theorem applied to a concrete row
where both lead flags are set and first_scoring_pass_durations_1 is
4.2 seconds: team 1 wins and time_to_lead is 4.2. -/
theorem c3_team_with_lead_tiebreak_witness :
    ∃ d ∈ extractJamDerived [c3Row],
      d.teamWithLead = some 1 ∧ d.timeToLead = some ((21 : Rat)/5) :=
  ⟨(extractJamDerived [c3Row]).headI, by simp [extractJamDerived],
    (c3_team_with_lead_tiebreak [c3Row] _ (by simp [extractJamDerived])).1 (by decide)⟩

/-! ### ScoreboardClient.on_message (scoreboard_server_io.py, lines 46-125)

The accumulated game state (the value of game_json_dict["state"]) is an
insertion-ordered association list from dotted keys to JSON values,
where a value of `none` is JSON null.  `PyErr` names the Python
exception classes the handler can produce.  Python's for-loop over a
dict raises RuntimeError as soon as an entry has been deleted from the
dict being iterated, which is what the child-key deletion loop at
lines 98-100 does; the model reproduces that early abort. -/

/-- Python exception classes relevant to the modelled code. -/
inductive PyErr where
  | keyError
  | nameError
  | runtimeError
  | valueError
  deriving DecidableEq, Repr

/-- A JSON scalar value in the state dict: `none` is JSON null. -/
abbrev JVal := Option String

/-- The accumulated (or delta) state mapping, insertion ordered. -/
abbrev StateDict := List (String × JVal)

/-- Python s.startswith(pre), computed on the character lists so that
proofs can evaluate it by kernel reduction. -/
def pyStartsWith (s pre : String) : Bool :=
  pre.data.isPrefixOf s.data

/-- Python dict lookup d.get(k): the value at the first (unique)
occurrence of the key. -/
def dictGet? (d : StateDict) (k : String) : Option JVal :=
  (d.find? (fun kv => kv.1 = k)).map (fun kv => kv.2)

/-- Python dict membership test. -/
def dictHas (d : StateDict) (k : String) : Bool :=
  d.any (fun kv => kv.1 = k)

/-- Python dict assignment d[k] = v: update in place if the key
exists, else append at the end (insertion order). -/
def dictSet (d : StateDict) (k : String) (v : JVal) : StateDict :=
  if dictHas d k then
    d.map (fun kv => if kv.1 = k then (k, v) else kv)
  else d ++ [(k, v)]

/-- Python del d[k] for a dict with unique keys: drop the entry. -/
def dictDel (d : StateDict) (k : String) : StateDict :=
  d.eraseP (fun kv => decide (kv.1 = k))

/-- One iteration of the null-key handling at lines 96-100: delete the
exact key if present, then loop over the dict looking for keys that
start with the key followed by a dot.  Deleting such a key mutates the
dict mid-iteration, so the loop deletes the first matching key and
then raises RuntimeError when it advances; the partially updated dict
is carried in the error value. -/
def processNullKey (st : StateDict) (key : String) :
    Except StateDict StateDict :=
  let st1 := if dictHas st key then dictDel st key else st
  match st1.find? (fun kv => pyStartsWith kv.1 (key ++ ".")) with
  | none => .ok st1
  | some kv => .error (dictDel st1 kv.1)

/-- The loop over all null-valued message keys (lines 94-100); a
RuntimeError from one key aborts the rest. -/
def processNullKeys (st : StateDict) (keys : List String) :
    Except StateDict StateDict :=
  match keys with
  | [] => .ok st
  | k :: rest =>
    match processNullKey st k with
    | .ok st1 => processNullKeys st1 rest
    | .error st1 => .error st1

/-- The mutable fields of ScoreboardClient touched by on_message.
game_json_dict is represented by its "state" entry alone:
`none` means game_json_dict has no "state" key (in particular the
initial empty dict). -/
structure SBClient where
  nMessagesReceived : Nat
  gameJsonState : Option StateDict
  nExceptions : Nat
  scoreboardVersion : Option String
  gameId : JVal
  isConnected : Bool
  gameStateDirty : Bool
  deriving DecidableEq, Repr

/-- The client as built by ScoreboardClient.__init__. -/
def initialClient : SBClient :=
  { nMessagesReceived := 0, gameJsonState := none, nExceptions := 0,
    scoreboardVersion := none, gameId := none, isConnected := false,
    gameStateDirty := false }

/-- Outcome of the try block of on_message: normal fall-through,
an explicit return (line 81), or a caught exception. -/
inductive TryOutcome where
  | normal (c : SBClient)
  | earlyReturn (c : SBClient)
  | caught (c : SBClient)

/-- Version caching (lines 67-68 and 90-91). -/
def cacheVersion (c : SBClient) (mstate : StateDict) : SBClient :=
  match dictGet? mstate "ScoreBoard.Version(release)" with
  | some (some v) => { c with scoreboardVersion := some v }
  | _ => c

/-- The dirty-flag loop at lines 109-113: set the flag if any message
key is neither a clock update nor the version key. -/
def dirtyAfter (c : SBClient) (mstate : StateDict) : SBClient :=
  if mstate.any (fun kv =>
      !(pyStartsWith kv.1 "ScoreBoard.CurrentGame.Clock") &&
      kv.1 ≠ "ScoreBoard.Version(release)") then
    { c with gameStateDirty := true }
  else c

/-- The try block of on_message (lines 55-113) for an already-parsed
message: `msg = none` models a JSON message without a "state" key. -/
def onMessageTry (c : SBClient) (msg : Option StateDict) : TryOutcome :=
  match msg with
  | none => .normal c
  | some mstate =>
    let c := cacheVersion c mstate
    let step2 : Except SBClient SBClient :=
      match dictGet? mstate "ScoreBoard.CurrentGame.Game" with
      | none => .ok c
      | some messageGameId =>
        if c.gameId ≠ none ∧ c.gameId ≠ messageGameId then
          .error { c with isConnected := false }
        else .ok { c with gameId := messageGameId }
    match step2 with
    | .error c' => .earlyReturn c'
    | .ok c =>
      match c.gameJsonState with
      | some accum =>
        let c := cacheVersion c mstate
        let nullKeys := (mstate.filter (fun kv => kv.2 = none)).map (fun kv => kv.1)
        match processNullKeys accum nullKeys with
        | .error partialState =>
          .caught { c with gameJsonState := some partialState,
                           nExceptions := c.nExceptions + 1 }
        | .ok accum1 =>
          let accum2 := mstate.foldl (fun acc kv =>
            match kv.2 with
            | some _ => dictSet acc kv.1 kv.2
            | none => acc) accum1
          .normal (dirtyAfter { c with gameJsonState := some accum2 } mstate)
      | none =>
        .normal (dirtyAfter { c with gameJsonState := some mstate } mstate)

/-- The code after the try/except block (lines 121-125): it reads
game_json_dict["state"] unconditionally, raising KeyError when the
accumulated dict has no "state" entry, and otherwise re-injects the
cached scoreboard version if the state lacks one. -/
def onMessagePost (c : SBClient) : Except PyErr SBClient :=
  match c.gameJsonState with
  | none => .error .keyError
  | some st =>
    if dictHas st "ScoreBoard.Version(release)" then .ok c
    else
      match c.scoreboardVersion with
      | some v =>
        let st1 := dictSet st "ScoreBoard.Version(release)" (some v)
        .ok { c with gameJsonState := some st1 }
      | none => .ok c

/-- ScoreboardClient.on_message over a parsed message: bump the message
counter, run the try block, and unless the method returned early at
line 81, run the unconditional version check after the try/except. -/
def onMessage (c : SBClient) (msg : Option StateDict) : Except PyErr SBClient :=
  let c := { c with nMessagesReceived := c.nMessagesReceived + 1 }
  match onMessageTry c msg with
  | .earlyReturn c' => .ok c'
  | .normal c' => onMessagePost c'
  | .caught c' => onMessagePost c'

/-- An accumulated state with a key, two children of that key, and a
sibling key under Team(2). -/
def c5Accum : StateDict :=
  [("ScoreBoard.CurrentGame.Team(1).Score", some "5"),
   ("ScoreBoard.CurrentGame.Team(1).Score.TripScore", some "1"),
   ("ScoreBoard.CurrentGame.Team(1).Score.JamScore", some "2"),
   ("ScoreBoard.CurrentGame.Team(2).Score", some "7")]

/-- A client that has already accumulated `c5Accum`. -/
def c5Client : SBClient :=
  { nMessagesReceived := 3, gameJsonState := some c5Accum, nExceptions := 0,
    scoreboardVersion := none, gameId := none, isConnected := true,
    gameStateDirty := false }

/-- A delta nulling Team(1).Score and updating Team(2).Score. -/
def c5Delta : StateDict :=
  [("ScoreBoard.CurrentGame.Team(1).Score", none),
   ("ScoreBoard.CurrentGame.Team(2).Score", some "9")]

/-- The state the handler actually leaves behind on `c5Delta`: the
exact key and only the FIRST child are deleted, the second child
survives, and the non-null update to Team(2).Score is lost. -/
def c5ResultState : StateDict :=
  [("ScoreBoard.CurrentGame.Team(1).Score.JamScore", some "2"),
   ("ScoreBoard.CurrentGame.Team(2).Score", some "7")]

/-- C5: evaluating on_message at the failing input.  The child-key
deletion loop at lines 98-100 deletes from the dict it is iterating,
so Python raises RuntimeError after the first matching child is
removed; the exception is caught at line 115, leaving the second
child key in the accumulated state (and skipping the non-null updates
and the dirty flag), contrary to the documented delete semantics. -/
theorem c5_null_delete_aborts_after_first_child :
    onMessage c5Client (some c5Delta) =
      .ok { nMessagesReceived := 4, gameJsonState := some c5ResultState,
            nExceptions := 1, scoreboardVersion := none, gameId := none,
            isConnected := true, gameStateDirty := false } ∧
    dictHas c5ResultState "ScoreBoard.CurrentGame.Team(1).Score.JamScore" = true := by
  exact ⟨rfl, rfl⟩

/-- C10: a message with no "state" entry arriving before any game
state has been accumulated.  The try block falls through without
touching game_json_dict, and the version check after the try/except
reads game_json_dict["state"] unconditionally, so on_message raises
an uncaught KeyError instead of returning normally. -/
theorem c10_stateless_message_keyerror :
    onMessage initialClient none = .error .keyError := rfl

/-! ### Team colors (game_data.DerbyGame.__init__ lines 38-57 and
json_to_pandas.load_json_derby_game lines 35-40)

`DerbyGame.__init__` starts from the fixed two-entry default seaborn
palette and only overwrites it when the team-color table yields colors
for both teams; every failure inside the try block (missing keys, or
seaborn rejecting the colors) falls back to the defaults.  In
`load_json_derby_game`, however, the except arm that catches a failure
of `extract_team_colors` only logs: the local variable
`pdf_team_colors` is then never assigned, and the following
`return DerbyGame(..., pdf_team_colors)` raises NameError. -/

/-- The first two entries of the default seaborn palette, the fixed
fallback colors. -/
def defaultTeamColor1 : String := "default-palette-0"

/-- Second entry of the default fallback palette. -/
def defaultTeamColor2 : String := "default-palette-1"

/-- The color-resolution logic of DerbyGame.__init__ (lines 41-57)
for a present team-color table: use slots "1"/"2" when both are
present (v5), else look both team names up, any KeyError falling back
to the default palette; `paletteOk` stands for seaborn accepting the
two colors in sns.color_palette, whose failure also falls back. -/
def resolveTeamColors (teamColors : List (String × String))
    (team1Name team2Name : String) (paletteOk : String → String → Bool) :
    String × String :=
  let lk := fun k => (teamColors.find? (fun kv => kv.1 = k)).map (fun kv => kv.2)
  let attempt : Option (String × String) :=
    match lk "1", lk "2" with
    | some c1, some c2 => some (c1, c2)
    | _, _ =>
      match lk team1Name, lk team2Name with
      | some c1, some c2 => some (c1, c2)
      | _, _ => none
  match attempt with
  | none => (defaultTeamColor1, defaultTeamColor2)
  | some (c1, c2) =>
    if paletteOk c1 c2 then (c1, c2) else (defaultTeamColor1, defaultTeamColor2)

/-- The team-color handling of load_json_derby_game (lines 35-40): the
local pdf_team_colors is only bound when extract_team_colors succeeds;
the except arm logs and leaves it unbound, so the subsequent use in
the return statement raises NameError. -/
def loadJsonDerbyGameColors (extraction : Except PyErr (List (String × String))) :
    Except PyErr (List (String × String)) :=
  let pdfTeamColors : Option (List (String × String)) :=
    match extraction with
    | .ok tc => some tc
    | .error _ => none
  match pdfTeamColors with
  | some tc => .ok tc
  | none => .error .nameError

/-- C6: the code contradicts the claim.  When team-color extraction
fails, load_json_derby_game raises NameError instead of returning a
DerbyGame (first conjunct); the fallback itself is fine: with the
color keys absent (an empty color table) DerbyGame.__init__ keeps the
fixed default two-color palette whatever the team names and whatever
seaborn does (second conjunct). -/
theorem c6_color_failure_raises_namerror :
    loadJsonDerbyGameColors (.error .valueError) = .error .nameError ∧
    ∀ (team1Name team2Name : String) (paletteOk : String → String → Bool),
      resolveTeamColors [] team1Name team2Name paletteOk =
        (defaultTeamColor1, defaultTeamColor2) :=
  ⟨rfl, fun _ _ _ => rfl⟩

/-! ### The flattened game-state dataframe (json_to_pandas.json_to_game_dataframe)

`json_to_game_dataframe` turns the raw state mapping into one row per
key, with the dot-separated key split into chunks.  A `GSRow` is such
a row: its `chunks` are key.split("."), its `value` the JSON value
(rendered as a string; only equality on values matters to the claims
below).  `kc r i` is the keychunk_i column; indexing past the end of
the chunk list stands for rows a well-formed dump never produces. -/

/-- One row of the flattened game-state dataframe. -/
structure GSRow where
  chunks : List String
  value : String
  deriving DecidableEq, Repr, Inhabited

/-- The keychunk_i column: the i-th dot-separated chunk of the key. -/
def kc (r : GSRow) (i : Nat) : String :=
  r.chunks.getD i ""

/-- The full dotted key of a row. -/
def keyOf (r : GSRow) : String :=
  String.intercalate "." r.chunks

/-- Literal substring containment on character lists (the semantics of
the pandas str.contains calls in this code, whose patterns are
regex-escaped literals). -/
def containsSubAux (pat : List Char) : List Char → Bool
  | [] => pat.isPrefixOf ([] : List Char)
  | c :: t => pat.isPrefixOf (c :: t) || containsSubAux pat t

/-- Literal substring containment on strings. -/
def strContains (s pat : String) : Bool :=
  containsSubAux pat.data s.data

/-- Parse a run of decimal digits (the entity indices that Python
reads with int(...)); none on empty or non-digit input. -/
def digitsToNatAux : Option Nat → Char → Option Nat
  | some n, c => if c.isDigit then some (10 * n + (c.toNat - 48)) else none
  | none, _ => none

/-- Parse a digit string to a Nat. -/
def parseNatChars (l : List Char) : Option Nat :=
  if l.isEmpty then none else l.foldl digitsToNatAux (some 0)

/-! ### Jam table builder (json_to_pandas.build_jam_dataframe, lines 229-255,
and extract_nonteam_jam_data, lines 258-314) -/

/-- The rows of build_jam_dataframe: keychunk_1 starts with "Period"
and keychunk_2 starts with "Jam(". -/
def jamRows (rows : List GSRow) : List GSRow :=
  (rows.filter (fun r => pyStartsWith (kc r 1) "Period")).filter
    (fun r => pyStartsWith (kc r 2) "Jam(")

/-- The jam column: int(keychunk_2[len("Jam("):-1]). -/
def jamOf (r : GSRow) : Nat :=
  (parseNatChars (((kc r 2).data.drop 4).dropLast)).getD 0

/-- The period column: int(keychunk_1[len("Period("):-1]). -/
def periodOf (r : GSRow) : Nat :=
  (parseNatChars (((kc r 1).data.drop 7).dropLast)).getD 0

/-- The composite key column built at json_to_pandas.py line 252:
"{period}:{jam}" with the jam zero-padded to two digits. -/
def prdJamStr (p j : Nat) : String :=
  toString p ++ ":" ++ (if j < 10 then "0" else "") ++ toString j

/-- The prd_jam column of a jam row. -/
def prdJamOf (r : GSRow) : String :=
  prdJamStr (periodOf r) (jamOf r)

/-- The distinct prd_jam values among the jam rows, i.e. the set of
(period, jam) pairs appearing under Period(p).Jam(j) keys. -/
def rawPrdJams (rows : List GSRow) : List String :=
  ((jamRows rows).map prdJamOf).dedup

/-- n_jams = len(set(pdf_jam_data.prd_jam)). -/
def nJams (rows : List GSRow) : Nat :=
  (rawPrdJams rows).length

/-- Occurrence count of a keychunk_3 field among the jam rows
(value_counts at extract_nonteam_jam_data). -/
def countKc3 (jrs : List GSRow) (f : String) : Nat :=
  (jrs.filter (fun r => kc r 3 = f)).length

/-- The jam rows whose keychunk_3 field occurs exactly n_jams times:
the rows the one-per-jam pivot is built from. -/
def jamSimpleData (rows : List GSRow) : List GSRow :=
  (jamRows rows).filter (fun r => countKc3 (jamRows rows) (kc r 3) = nJams rows)

/-- The prd_jam values of the table extract_nonteam_jam_data returns:
the pivot has one row per distinct prd_jam of the selected rows, and
the spurious "0:00" row is dropped; the later per-column time
conversions and column drops do not change the row set. -/
def extractNonteamPrdJams (rows : List GSRow) : List String :=
  (((jamSimpleData rows).map prdJamOf).dedup).filter (fun pj => pj ≠ "0:00")

/-- The period/jam fields that extract_nonteam_jam_data reads
unconditionally (time conversions at lines 298-307 and the column
drop at lines 310-312): a dump is only processed successfully when
each of them is a one-per-jam field. -/
def requiredJamFields : List String :=
  ["Duration", "Id", "Next", "PeriodClockDisplayEnd", "Previous",
   "Readonly", "PeriodClockElapsedEnd", "PeriodClockElapsedStart"]

/-- A valid raw state for the jam-table builder: every required
per-jam bookkeeping field occurs exactly n_jams times and covers
every jam.  (Real CRG dumps emit each of these once per jam;
extract_nonteam_jam_data raises otherwise.) -/
def ValidJamState (rows : List GSRow) : Prop :=
  ∀ f ∈ requiredJamFields,
    countKc3 (jamRows rows) f = nJams rows ∧
    ∀ pj ∈ rawPrdJams rows, ∃ r ∈ jamRows rows, kc r 3 = f ∧ prdJamOf r = pj

instance (rows : List GSRow) : Decidable (ValidJamState rows) := by
  unfold ValidJamState; infer_instance

/-- C1: for every valid raw state, the prd_jam values of the table
built by build_jam_dataframe / extract_nonteam_jam_data are exactly
the distinct "{period}:{jam:02d}" strings of the (period, jam) pairs
appearing under Period(p).Jam(j) keys, minus the always-dropped
placeholder "0:00", with exactly one row per remaining pair. -/
theorem c1_jam_table_prdjam_set (rows : List GSRow) (hv : ValidJamState rows) :
    (∀ pj, pj ∈ extractNonteamPrdJams rows ↔
      (pj ∈ rawPrdJams rows ∧ pj ≠ "0:00")) ∧
    (extractNonteamPrdJams rows).Nodup := by
  constructor
  · intro pj
    constructor
    · intro hpj
      rw [extractNonteamPrdJams, List.mem_filter] at hpj
      obtain ⟨hmem, hne⟩ := hpj
      refine ⟨?_, by simpa using hne⟩
      rw [List.mem_dedup, List.mem_map] at hmem
      obtain ⟨r, hr, rfl⟩ := hmem
      rw [jamSimpleData, List.mem_filter] at hr
      exact List.mem_dedup.mpr (List.mem_map_of_mem _ hr.1)
    · rintro ⟨hpj, hne⟩
      obtain ⟨hcount, hcover⟩ := hv "Duration" (by simp [requiredJamFields])
      obtain ⟨r, hr, hf, hpjr⟩ := hcover pj hpj
      rw [extractNonteamPrdJams, List.mem_filter]
      refine ⟨?_, by simpa using hne⟩
      rw [List.mem_dedup, List.mem_map]
      refine ⟨r, ?_, hpjr⟩
      rw [jamSimpleData, List.mem_filter]
      exact ⟨hr, by rw [hf]; simpa using hcount⟩
  · exact List.Nodup.filter _ (List.nodup_dedup _)

/-- A concrete valid two-jam dump (the placeholder jam 0:00 and one
real jam 1:01), with one nested TeamJam field that is not a
one-per-jam field. -/
def c1Rows : List GSRow :=
  (requiredJamFields.map
    (fun f => { chunks := ["ScoreBoard", "Period(0)", "Jam(0)", f], value := "0" })) ++
  (requiredJamFields.map
    (fun f => { chunks := ["ScoreBoard", "Period(1)", "Jam(1)", f], value := "7" })) ++
  [{ chunks := ["ScoreBoard", "Period(1)", "Jam(1)", "TeamJam(1)", "JamScore"],
     value := "4" }]

/-- C1 (witness): the theorem applied to the concrete dump: the real
jam 1:01 is in the table and the placeholder 0:00 is not. -/
theorem c1_jam_table_prdjam_set_witness :
    ValidJamState c1Rows ∧
    "1:01" ∈ extractNonteamPrdJams c1Rows ∧
    "0:00" ∉ extractNonteamPrdJams c1Rows := by
  refine ⟨by decide, ((c1_jam_table_prdjam_set c1Rows (by decide)).1 "1:01").mpr
    (by decide), fun h => ?_⟩
  have := ((c1_jam_table_prdjam_set c1Rows (by decide)).1 "0:00").mp h
  exact this.2 rfl

/-! ### Team-jam table builder (json_to_pandas.process_team_jam_info,
lines 381-456), field-selection and pivot step -/

/-- The rows process_team_jam_info keeps for a team: jam rows whose
keychunk_3 contains "TeamJam(t" (line 394-395; the pattern is a
regex-escaped literal). -/
def teamJamRows (rows : List GSRow) (t : Nat) : List GSRow :=
  (jamRows rows).filter
    (fun r => strContains (kc r 3) ("TeamJam(" ++ toString t))

/-- Occurrence count of a keychunk_4 field among one team's TeamJam
rows (the value_counts at line 400). -/
def kc4Count (rows : List GSRow) (t : Nat) (f : String) : Nat :=
  ((teamJamRows rows t).filter (fun r => kc r 4 = f)).length

/-- The one-per-jam team-jam fields (lines 404-406): fields whose
occurrence count equals the passed jam count n, except those whose
name contains "ScoringTrip". -/
def teamjamSimpleFields (rows : List GSRow) (t n : Nat) : List String :=
  (((teamJamRows rows t).map (fun r => kc r 4)).dedup).filter
    (fun f => kc4Count rows t f = n ∧ strContains f "ScoringTrip" = false)

/-- The team-jam rows carrying a selected field (line 410-411). -/
def teamjamSimpleData (rows : List GSRow) (t n : Nat) : List GSRow :=
  (teamJamRows rows t).filter
    (fun r => kc r 4 ∈ teamjamSimpleFields rows t n)

/-- The index of the pivot at lines 413-415: one row per distinct
prd_jam among the selected rows. -/
def processTeamJamPivotIndex (rows : List GSRow) (t n : Nat) : List String :=
  ((teamjamSimpleData rows t n).map prdJamOf).dedup

/-- C8: for a team t and passed jam count n, process_team_jam_info
selects exactly the segment-4 field names occurring n times in that
team's TeamJam rows, minus any field containing "ScoringTrip", and
pivots the selected rows into one row per prd_jam. -/
theorem c8_teamjam_field_selection (rows : List GSRow) (t n : Nat)
    (hn : 0 < n) :
    (∀ f, f ∈ teamjamSimpleFields rows t n ↔
      (kc4Count rows t f = n ∧ strContains f "ScoringTrip" = false)) ∧
    (processTeamJamPivotIndex rows t n).Nodup ∧
    (∀ pj, pj ∈ processTeamJamPivotIndex rows t n ↔
      ∃ r ∈ teamJamRows rows t,
        kc r 4 ∈ teamjamSimpleFields rows t n ∧ prdJamOf r = pj) := by
  refine ⟨fun f => ?_, List.nodup_dedup _, fun pj => ?_⟩
  · rw [teamjamSimpleFields, List.mem_filter]
    constructor
    · rintro ⟨-, h⟩
      simpa using h
    · rintro ⟨hcount, hst⟩
      refine ⟨?_, by simp [hcount, hst]⟩
      have hne : (teamJamRows rows t).filter (fun r => kc r 4 = f) ≠ [] := by
        intro hnil
        rw [kc4Count, hnil] at hcount
        simp at hcount
        omega
      obtain ⟨r, hr⟩ := List.exists_mem_of_ne_nil _ hne
      rw [List.mem_filter] at hr
      rw [List.mem_dedup, List.mem_map]
      exact ⟨r, hr.1, by simpa using hr.2⟩
  · rw [processTeamJamPivotIndex, List.mem_dedup, List.mem_map]
    constructor
    · rintro ⟨r, hr, rfl⟩
      rw [teamjamSimpleData, List.mem_filter] at hr
      exact ⟨r, hr.1, by simpa using hr.2, rfl⟩
    · rintro ⟨r, hr, hf, rfl⟩
      refine ⟨r, ?_, rfl⟩
      rw [teamjamSimpleData, List.mem_filter]
      exact ⟨hr, by simpa using hf⟩

/-- A concrete two-jam team-jam dump: JamScore occurs once per jam,
ScoringTrip(1) also occurs twice but is name-excluded, and Lead
occurs only once. -/
def c8Rows : List GSRow :=
  [{ chunks := ["ScoreBoard", "Period(1)", "Jam(1)", "TeamJam(1)", "JamScore"],
     value := "4" },
   { chunks := ["ScoreBoard", "Period(1)", "Jam(2)", "TeamJam(1)", "JamScore"],
     value := "0" },
   { chunks := ["ScoreBoard", "Period(1)", "Jam(1)", "TeamJam(1)", "ScoringTrip(1)"],
     value := "x" },
   { chunks := ["ScoreBoard", "Period(1)", "Jam(2)", "TeamJam(1)", "ScoringTrip(1)"],
     value := "x" },
   { chunks := ["ScoreBoard", "Period(1)", "Jam(1)", "TeamJam(1)", "Lead"],
     value := "true" }]

/-- C8 (witness): the theorem applied to the concrete dump with n = 2:
JamScore is selected, ScoringTrip(1) is excluded despite occurring
twice, and the pivot has a row for jam 1:01. -/
theorem c8_teamjam_field_selection_witness :
    (0 : Nat) < 2 ∧
    "JamScore" ∈ teamjamSimpleFields c8Rows 1 2 ∧
    "ScoringTrip(1)" ∉ teamjamSimpleFields c8Rows 1 2 ∧
    "1:01" ∈ processTeamJamPivotIndex c8Rows 1 2 := by
  have h := c8_teamjam_field_selection c8Rows 1 2 (by decide)
  refine ⟨by decide, (h.1 "JamScore").mpr (by decide), fun hmem => ?_,
    (h.2.2 "1:01").mpr ⟨c8Rows.headI, by decide, by decide, by decide⟩⟩
  have := (h.1 "ScoringTrip(1)").mp hmem
  simp [strContains, containsSubAux] at this

/-! ### Penalties (json_to_pandas.extract_penalties, lines 540-574, and
build_penalty_code_name_map, lines 577-606) -/

/-- A roster row, restricted to the columns extract_penalties joins on
(pdf_roster[["Id", "Name", "team"]]). -/
structure RosterRow where
  id : String
  name : String
  team : String
  deriving DecidableEq, Repr

/-- One output row of extract_penalties. -/
structure PenaltyOut where
  name : String
  team : String
  penaltyCode : String
  penaltyName : String
  deriving DecidableEq, Repr

/-- The candidate penalty rows (lines 553-557): exactly five key
chunks, and keychunk_3 starting with "Penalty(". -/
def penaltyGameRows (rows : List GSRow) : List GSRow :=
  (rows.filter (fun r => r.chunks.length = 5)).filter
    (fun r => pyStartsWith (kc r 3) "Penalty(")

/-- The skater id: keychunk_2[len("Skater("):-1] (line 560). -/
def skaterIdOf (r : GSRow) : String :=
  String.mk (((kc r 2).data.drop 7).dropLast)

/-- The inner merge with the roster on the skater id (line 562):
each penalty row paired with every roster row of the same id, in
pandas order. -/
def penaltiesWithRoster (rows : List GSRow) (roster : List RosterRow) :
    List (GSRow × RosterRow) :=
  (penaltyGameRows rows).flatMap (fun pr =>
    (roster.filter (fun ro => ro.id = skaterIdOf pr)).map (fun ro => (pr, ro)))

/-- Python penalty.split(",")[0]: the prefix before the first comma. -/
def truncAtComma (s : String) : String :=
  String.mk (s.data.takeWhile (fun c => c ≠ ','))

/-- The source rows of the penalty code table (lines 589-594): keys
containing "PenaltyCode" for v5, keys starting with
"ScoreBoard.PenaltyCodes.Code" otherwise. -/
def penaltyCodeEntries (rows : List GSRow) (version : Nat) : List GSRow :=
  if version = 5 then rows.filter (fun r => strContains (keyOf r) "PenaltyCode")
  else rows.filter (fun r => pyStartsWith (keyOf r) "ScoreBoard.PenaltyCodes.Code")

/-- Python x[-2:-1]: the second-to-last character, as a string. -/
def pySecondLastChar (s : String) : String :=
  String.mk ((s.data.dropLast).drop (s.data.length - 2))

/-- build_penalty_code_name_map: code = key[-2:-1], name truncated at
the first comma (lines 595-605). -/
def penaltyCodeNameMap (rows : List GSRow) (version : Nat) :
    List (String × String) :=
  (penaltyCodeEntries rows version).map
    (fun r => (pySecondLastChar (keyOf r), truncAtComma r.value))

/-- extract_penalties: merge candidate rows with the roster (inner, on
skater id), keep the penalty_key == "Code" rows, then merge with the
code-to-name map on penalty_code — pandas merge with no how argument,
i.e. another INNER join (line 572). -/
def extractPenalties (rows : List GSRow) (roster : List RosterRow)
    (version : Nat) : List PenaltyOut :=
  let codeRows := (penaltiesWithRoster rows roster).filter
    (fun pr => kc pr.1 4 = "Code")
  let codeMap := penaltyCodeNameMap rows version
  codeRows.flatMap (fun pr =>
    (codeMap.filter (fun cm => cm.1 = pr.1.value)).map (fun cm =>
      { name := pr.2.name, team := pr.2.team,
        penaltyCode := pr.1.value, penaltyName := cm.2 }))

/-- A game state with one penalty (code "Z") for skater abc and a
code table holding only code "A". -/
def c9Rows : List GSRow :=
  [{ chunks := ["ScoreBoard", "Team(1)", "Skater(abc)", "Penalty(1)", "Code"],
     value := "Z" },
   { chunks := ["ScoreBoard", "PenaltyCodes", "Code(A)"],
     value := "Adirectional,long clause" }]

/-- The roster for the C9 counterexample. -/
def c9Roster : List RosterRow :=
  [{ id := "abc", name := "Skater1", team := "TeamX" }]

/-- C9 (counterexample): the claim says a penalty whose code is
missing from the code-to-name mapping still yields an output row
(outer join).  Here skater abc has a Code penalty "Z" that survives
the roster join, the mapping only knows code "A", and the output is
empty: the final merge at line 572 is an inner join, so the row is
dropped. -/
theorem c9_missing_code_dropped_counterexample :
    (penaltiesWithRoster c9Rows c9Roster).filter
      (fun pr => kc pr.1 4 = "Code") ≠ [] ∧
    penaltyCodeNameMap c9Rows 4 = [("A", "Adirectional")] ∧
    extractPenalties c9Rows c9Roster 4 = [] := by
  refine ⟨by decide, by decide, by decide⟩

/-- C9 (amended): extract_penalties keeps, after the inner roster
join on skater id, only rows whose penalty sub-key is "Code", then
INNER-joins them against the code-to-name mapping, so a penalty whose
code is missing from the mapping yields no output row; every
resulting penalty_name is the mapped name truncated at its first
comma. -/
theorem c9_penalties_inner_join (rows : List GSRow)
    (roster : List RosterRow) (version : Nat) :
    (∀ p, p ∈ extractPenalties rows roster version ↔
      ∃ pr ∈ penaltiesWithRoster rows roster,
        kc pr.1 4 = "Code" ∧
        ∃ cm ∈ penaltyCodeNameMap rows version,
          cm.1 = pr.1.value ∧
          p = { name := pr.2.name, team := pr.2.team,
                penaltyCode := pr.1.value, penaltyName := cm.2 }) ∧
    (∀ p ∈ extractPenalties rows roster version,
      ∃ cm ∈ penaltyCodeNameMap rows version, cm.1 = p.penaltyCode) ∧
    (∀ p ∈ extractPenalties rows roster version,
      ∃ e ∈ penaltyCodeEntries rows version,
        p.penaltyName = truncAtComma e.value) := by
  have hmem : ∀ p, p ∈ extractPenalties rows roster version ↔
      ∃ pr ∈ penaltiesWithRoster rows roster,
        kc pr.1 4 = "Code" ∧
        ∃ cm ∈ penaltyCodeNameMap rows version,
          cm.1 = pr.1.value ∧
          p = { name := pr.2.name, team := pr.2.team,
                penaltyCode := pr.1.value, penaltyName := cm.2 } := by
    intro p
    simp only [extractPenalties, List.mem_flatMap, List.mem_filter, List.mem_map]
    constructor
    · rintro ⟨pr, ⟨hpr, hcode⟩, cm, ⟨hcm, hcmc⟩, rfl⟩
      exact ⟨pr, hpr, by simpa using hcode, cm, hcm, by simpa using hcmc, rfl⟩
    · rintro ⟨pr, hpr, hcode, cm, hcm, hcmc, rfl⟩
      exact ⟨pr, ⟨hpr, by simpa using hcode⟩, cm, ⟨hcm, by simpa using hcmc⟩, rfl⟩
  refine ⟨hmem, fun p hp => ?_, fun p hp => ?_⟩
  · obtain ⟨pr, _, _, cm, hcm, hcmc, rfl⟩ := (hmem p).mp hp
    exact ⟨cm, hcm, hcmc⟩
  · obtain ⟨pr, _, _, cm, hcm, hcmc, rfl⟩ := (hmem p).mp hp
    rw [penaltyCodeNameMap, List.mem_map] at hcm
    obtain ⟨e, he, rfl⟩ := hcm
    exact ⟨e, he, rfl⟩

/-- C9 (witness): the amended theorem applied to a state where the
penalty code IS in the mapping: the penalty for skater abc comes out
with the comma-truncated name. -/
theorem c9_penalties_inner_join_witness :
    ∃ p ∈ extractPenalties
      [{ chunks := ["ScoreBoard", "Team(1)", "Skater(abc)", "Penalty(1)", "Code"],
         value := "A" },
       { chunks := ["ScoreBoard", "PenaltyCodes", "Code(A)"],
         value := "Adirectional,long clause" }] c9Roster 4,
      ∃ cm ∈ penaltyCodeNameMap
        [{ chunks := ["ScoreBoard", "Team(1)", "Skater(abc)", "Penalty(1)", "Code"],
           value := "A" },
         { chunks := ["ScoreBoard", "PenaltyCodes", "Code(A)"],
           value := "Adirectional,long clause" }] 4, cm.1 = p.penaltyCode := by
  refine ⟨{ name := "Skater1", team := "TeamX", penaltyCode := "A",
            penaltyName := "Adirectional" }, by decide, ?_⟩
  exact (c9_penalties_inner_join _ c9Roster 4).2.1 _ (by decide)

/-! ### Jammer summary (game_data.DerbyGame.build_team_jammersummary_df,
lines 211-294)

The per-jam table is viewed through one team's columns.  The groupby
on (jammer_name, jammer_number) drops rows where either key is
missing, pandas means are exact rationals here, and the mean of
Mean Time to Initial skips missing values (none when all are
missing).  The extra all-NaN mean_jam_score column that the synthetic
pivot rows introduce carries no data and is not modelled. -/

/-- One team's slice of a merged per-jam row, restricted to the
columns build_team_jammersummary_df reads. -/
structure TeamJamRow where
  jammerName : Option String
  jammerNumber : Option String
  jammerPoints : Int
  netPoints : Int
  lead : Bool
  lost : Bool
  timeToInitial : Option Rat
  starPass : Bool
  pivotName : String
  pivotNumber : String
  pivotPoints : Int
  deriving DecidableEq, Repr

/-- One row of the jammer summary dataframe. -/
structure JammerSummaryRow where
  jammer : String
  number : String
  totalScore : Int
  meanNetPoints : Rat
  jams : Nat
  propLead : Rat
  leadCount : Nat
  lostCount : Nat
  meanTimeToInitial : Option Rat
  deriving DecidableEq, Repr

/-- Mean of a list of rationals (groups are never empty where this is
used). -/
def ratMean (l : List Rat) : Rat :=
  l.sum / l.length

/-- pandas mean with NaN skipping: none when every value is missing. -/
def optMean (l : List (Option Rat)) : Option Rat :=
  let v := l.filterMap id
  if v.isEmpty then none else some (v.sum / v.length)

/-- The groupby keys: (jammer_name, jammer_number) pairs, rows with a
missing component dropped (pandas groupby semantics), first-occurrence
order. -/
def jammerKeys (rows : List TeamJamRow) : List (String × String) :=
  (rows.filterMap (fun r =>
    match r.jammerName, r.jammerNumber with
    | some n, some m => some (n, m)
    | _, _ => none)).dedup

/-- The rows of one groupby group. -/
def jammerGroup (rows : List TeamJamRow) (k : String × String) :
    List TeamJamRow :=
  rows.filter (fun r => r.jammerName = some k.1 ∧ r.jammerNumber = some k.2)

/-- The primary-jammer aggregation (lines 232-250): per (name, number)
group, sum of jammer_points, mean net points, jam count, lead
proportion and count, lost count, mean time to initial. -/
def primaryJammerData (rows : List TeamJamRow) : List JammerSummaryRow :=
  (jammerKeys rows).map (fun k =>
    let g := jammerGroup rows k
    { jammer := k.1, number := k.2,
      totalScore := (g.map (fun r => r.jammerPoints)).sum,
      meanNetPoints := ratMean (g.map (fun r => (r.netPoints : Rat))),
      jams := g.length,
      propLead := ratMean (g.map (fun r => if r.lead then (1 : Rat) else 0)),
      leadCount := (g.filter (fun r => r.lead)).length,
      lostCount := (g.filter (fun r => r.lost)).length,
      meanTimeToInitial := optMean (g.map (fun r => r.timeToInitial)) })

/-- The jams with a star pass for this team (lines 254-255 and 280). -/
def starPassJams (rows : List TeamJamRow) : List TeamJamRow :=
  rows.filter (fun r => r.starPass)

/-- The distinct pivots of the star-pass jams (line 256). -/
def pivotsWhoJammed (rows : List TeamJamRow) : List String :=
  ((starPassJams rows).map (fun r => r.pivotName)).dedup

/-- The pivots who never appear among the groupby Jammer keys
(lines 257-258). -/
def jammersWhoOnlyPivotJammed (rows : List TeamJamRow) : List String :=
  (pivotsWhoJammed rows).filter
    (fun p => ¬ (primaryJammerData rows).any (fun s => s.jammer = p))

/-- The distinct (pivot_name, pivot_number) pairs of the whole table
(lines 262-264). -/
def allPivotPairs (rows : List TeamJamRow) : List (String × String) :=
  (rows.map (fun r => (r.pivotName, r.pivotNumber))).dedup

/-- The zero-initialized summary row synthesized for a pivot who only
jammed via star pass (lines 271-276). -/
def synthPivotRow (s num : String) : JammerSummaryRow :=
  { jammer := s, number := num, totalScore := 0, meanNetPoints := 0,
    jams := 0, propLead := 0, leadCount := 0, lostCount := 0,
    meanTimeToInitial := none }

/-- The synthesized zero-initialized rows for the pivots who only
jammed via star pass (lines 261-277). -/
def onlyPivotRows (rows : List TeamJamRow) : List JammerSummaryRow :=
  ((allPivotPairs rows).filter
    (fun pp => pp.1 ∈ jammersWhoOnlyPivotJammed rows)).map
    (fun pp => synthPivotRow pp.1 pp.2)

/-- The star-pass credit applied to every summary row (lines 280-292):
add the number of star-pass jams where this name was the pivot to
Jams, and the sum of pivot_points over those jams to Total Score. -/
def starPassCredit (rows : List TeamJamRow) (s : JammerSummaryRow) :
    JammerSummaryRow :=
  let sj := (starPassJams rows).filter (fun r => r.pivotName = s.jammer)
  { s with jams := s.jams + sj.length,
           totalScore := s.totalScore + (sj.map (fun r => r.pivotPoints)).sum }

/-- build_team_jammersummary_df: primary groupby rows, then the
synthesized only-pivot rows, then the star-pass credits (the code
skips the concat when there is no only-pivot row, which appending the
empty list reproduces). -/
def buildTeamJammerSummary (rows : List TeamJamRow) : List JammerSummaryRow :=
  (primaryJammerData rows ++ onlyPivotRows rows).map (starPassCredit rows)

/-- C7: a skater who pivots in at least one star-pass jam and never
appears as a (groupby-countable) primary jammer gets a synthesized
zero-initialized row which the star-pass credit then fills: they
appear in the summary with Jams equal to their star-pass jam count
(hence at least 1) and Total Score equal to the sum of their
pivot_points over those jams. -/
theorem c7_starpass_only_pivot_row (rows : List TeamJamRow) (s : String)
    (hstar : ∃ r ∈ rows, r.starPass = true ∧ r.pivotName = s)
    (hnotjam : ∀ r ∈ rows, r.jammerName = some s → r.jammerNumber = none) :
    ∃ out ∈ buildTeamJammerSummary rows,
      out.jammer = s ∧
      out.jams = ((starPassJams rows).filter (fun r => r.pivotName = s)).length ∧
      1 ≤ out.jams ∧
      out.totalScore =
        (((starPassJams rows).filter (fun r => r.pivotName = s)).map
          (fun r => r.pivotPoints)).sum := by
  obtain ⟨r, hr, hrs, hrp⟩ := hstar
  have hkeys : ∀ k ∈ jammerKeys rows, k.1 ≠ s := by
    intro k hk hks
    rw [jammerKeys, List.mem_dedup, List.mem_filterMap] at hk
    obtain ⟨r', hr', hmatch⟩ := hk
    cases hn : r'.jammerName with
    | none => rw [hn] at hmatch; simp at hmatch
    | some n =>
      cases hm : r'.jammerNumber with
      | none => rw [hn, hm] at hmatch; simp at hmatch
      | some m =>
        rw [hn, hm] at hmatch
        simp only [Option.some.injEq] at hmatch
        subst hmatch
        have hnone := hnotjam r' hr' (by rw [hn]; exact congrArg some hks)
        rw [hm] at hnone
        exact Option.some_ne_none m hnone
  have hnoprim : (primaryJammerData rows).any (fun q => q.jammer = s) = false := by
    rw [List.any_eq_false]
    rintro q hq
    rw [primaryJammerData, List.mem_map] at hq
    obtain ⟨k, hk, rfl⟩ := hq
    simpa using hkeys k hk
  have hrstar : r ∈ starPassJams rows := by
    rw [starPassJams, List.mem_filter]
    exact ⟨hr, by simpa using hrs⟩
  have honly : s ∈ jammersWhoOnlyPivotJammed rows := by
    rw [jammersWhoOnlyPivotJammed, List.mem_filter]
    constructor
    · rw [pivotsWhoJammed, List.mem_dedup, List.mem_map]
      exact ⟨r, hrstar, hrp⟩
    · simp [hnoprim]
  have hsynth : synthPivotRow s r.pivotNumber ∈ onlyPivotRows rows := by
    rw [onlyPivotRows, List.mem_map]
    refine ⟨(s, r.pivotNumber), ?_, rfl⟩
    rw [List.mem_filter]
    constructor
    · rw [allPivotPairs, List.mem_dedup, List.mem_map]
      exact ⟨r, hr, by rw [hrp]⟩
    · simpa using honly
  refine ⟨_, List.mem_map_of_mem (starPassCredit rows)
    (List.mem_append_right _ hsynth), rfl,
    by simp [starPassCredit, synthPivotRow], ?_,
    by simp [starPassCredit, synthPivotRow]⟩
  have hne : (starPassJams rows).filter (fun r' => r'.pivotName = s) ≠ [] := by
    intro hnil
    have hmemf : r ∈ (starPassJams rows).filter (fun r' => r'.pivotName = s) := by
      rw [List.mem_filter]
      exact ⟨hrstar, by simpa using hrp⟩
    rw [hnil] at hmemf
    simp at hmemf
  simp only [starPassCredit, synthPivotRow]
  have hpos := List.length_pos.mpr hne
  simpa using hpos

/-- A one-jam table where the recorded jammer is Jay and the pivot Pia
takes a star pass and scores 3 pivot points. -/
def c7Rows : List TeamJamRow :=
  [{ jammerName := some "Jay", jammerNumber := some "1", jammerPoints := 2,
     netPoints := 1, lead := true, lost := false, timeToInitial := some 5,
     starPass := true, pivotName := "Pia", pivotNumber := "11",
     pivotPoints := 3 }]

/-- C7 (witness): Pia never appears as a primary jammer yet shows up
in the summary with Jams = 1 and Total Score = 3. -/
theorem c7_starpass_only_pivot_row_witness :
    ∃ out ∈ buildTeamJammerSummary c7Rows,
      out.jammer = "Pia" ∧ 1 ≤ out.jams ∧ out.totalScore = 3 := by
  obtain ⟨out, hmem, hname, hjams, hge, hts⟩ :=
    c7_starpass_only_pivot_row c7Rows "Pia" (by decide) (by decide)
  refine ⟨out, hmem, hname, hge, ?_⟩
  rw [hts]
  decide

/-! ### TSV export (tsv_io.py)

write_game_data_tsv writes one "# key=value" line per metadata entry
followed by the jam table as tab-separated lines;
read_jams_tsv_header_dict re-reads the comment lines through a
tab-delimited csv reader (taking the first tab field of each line),
and read_jams_tsv_to_pandas re-reads the table with pandas, which
truncates every line at the first "#" and skips blank lines.  The
model works on lines of character lists: `PyStr` is a Python string,
a file is its list of lines, and tab-splitting/joining are explicit
so the round trip can be proved and refuted character by character.
Failure (StopIteration / IndexError / an unpacking error in the
header reader, EmptyDataError in pandas) is `none`. -/

/-- A Python string, as its character list. -/
abbrev PyStr := List Char

/-- Split on a separator character (Python str.split(sep) and the
field splitting of a csv reader on quote-free input). -/
def splitCh (sep : Char) : PyStr → List PyStr
  | [] => [[]]
  | c :: rest =>
    match splitCh sep rest with
    | [] => [[c]]
    | h :: t => if c = sep then [] :: h :: t else (c :: h) :: t

/-- Join with a separator character (to_csv field joining). -/
def joinCh (sep : Char) : List PyStr → PyStr
  | [] => []
  | [x] => x
  | x :: y :: t => x ++ sep :: joinCh sep (y :: t)

/-- Python str.strip(): drop whitespace from both ends. -/
def stripWs (s : PyStr) : PyStr :=
  ((s.dropWhile Char.isWhitespace).reverse.dropWhile Char.isWhitespace).reverse

/-- write_game_data_tsv (tsv_io.py lines 66-79): one "# key=value"
line per metadata entry, then the table header line, then one line
per table row, fields tab-joined. -/
def writeGameDataTsv (md : List (PyStr × PyStr)) (header : List PyStr)
    (rows : List (List PyStr)) : List PyStr :=
  md.map (fun kv => '#' :: ' ' :: (kv.1 ++ '=' :: kv.2)) ++
    (joinCh '\t' header :: rows.map (joinCh '\t'))

/-- read_jams_tsv_header_dict (lines 7-28): take the first tab field
of each line; while it starts with "# ", split the rest on "=" into
exactly two parts and strip them; stop at the first other line.
`none` models the uncaught errors: StopIteration at end of file,
IndexError on a blank line, and the unpacking error when the split
does not give exactly two parts. -/
def parseHeaderLines : List PyStr → Option (List (PyStr × PyStr))
  | [] => none
  | l :: rest =>
    if l.isEmpty then none
    else if ((splitCh '\t' l).headD []).take 2 = ['#', ' '] then
      match splitCh '=' (((splitCh '\t' l).headD []).drop 2) with
      | [k, v] =>
        (parseHeaderLines rest).map (fun acc => (stripWs k, stripWs v) :: acc)
      | _ => none
    else some []

/-- pandas comment="#": truncate a line at the first '#'. -/
def commentTrunc (l : PyStr) : PyStr :=
  l.takeWhile (fun c => c ≠ '#')

/-- pandas' duplicate-column mangling, walking the header left to
right: a name already seen k > 0 times becomes "name.k", a fresh name
is kept. -/
def mangleDupeColsAux (seen : List PyStr) : List PyStr → List PyStr
  | [] => []
  | n :: rest =>
    (if seen.count n = 0 then n
     else n ++ '.' :: (toString (seen.count n)).toList) ::
      mangleDupeColsAux (n :: seen) rest

/-- pandas' duplicate-column mangling of a header row: read_csv
renames the second of two equal column names "a" to "a.1", and so
on. -/
def mangleDupeCols (names : List PyStr) : List PyStr :=
  mangleDupeColsAux [] names

/-- read_jams_tsv_to_pandas (lines 31-43): truncate comments, skip
blank lines, take the first remaining line as the header (with
read_csv's mandatory duplicate-column mangling) and the rest as rows,
splitting fields on tabs; none when no line remains. -/
def readJamsTsvTable (ls : List PyStr) :
    Option (List PyStr × List (List PyStr)) :=
  match (ls.map commentTrunc).filter (fun l => ¬ l.isEmpty) with
  | [] => none
  | h :: t => some (mangleDupeCols (splitCh '\t' h), t.map (splitCh '\t'))

/-- splitCh never returns the empty list. -/
theorem splitCh_ne_nil (sep : Char) (l : PyStr) : splitCh sep l ≠ [] := by
  cases l with
  | nil => simp [splitCh]
  | cons c rest =>
    rw [splitCh]
    cases h : splitCh sep rest with
    | nil => simp
    | cons a t =>
      by_cases hc : c = sep <;> simp [hc]

/-- Splitting a string that avoids the separator gives it back whole. -/
theorem splitCh_no_sep (sep : Char) (x : PyStr) (h : sep ∉ x) :
    splitCh sep x = [x] := by
  induction x with
  | nil => rfl
  | cons c t ih =>
    have hc : c ≠ sep := fun hh => h (hh ▸ List.mem_cons_self c t)
    have ht : sep ∉ t := fun hh => h (List.mem_cons_of_mem c hh)
    rw [splitCh, ih ht]
    simp [hc]

/-- Splitting past a separator peels off the first field. -/
theorem splitCh_append (sep : Char) (x rest : PyStr) (h : sep ∉ x) :
    splitCh sep (x ++ sep :: rest) = x :: splitCh sep rest := by
  induction x with
  | nil =>
    rw [List.nil_append, splitCh]
    cases hs : splitCh sep rest with
    | nil => exact absurd hs (splitCh_ne_nil sep rest)
    | cons a t => simp
  | cons c t ih =>
    have hc : c ≠ sep := fun hh => h (hh ▸ List.mem_cons_self c t)
    have ht : sep ∉ t := fun hh => h (List.mem_cons_of_mem c hh)
    rw [List.cons_append, splitCh, ih ht]
    simp [hc]

/-- splitCh inverts joinCh on nonempty field lists avoiding the
separator. -/
theorem splitCh_joinCh (sep : Char) (xs : List PyStr) (hne : xs ≠ [])
    (hsep : ∀ x ∈ xs, sep ∉ x) : splitCh sep (joinCh sep xs) = xs := by
  induction xs with
  | nil => exact absurd rfl hne
  | cons x t ih =>
    cases t with
    | nil =>
      rw [joinCh]
      exact splitCh_no_sep sep x (hsep x (List.mem_cons_self x []))
    | cons y t' =>
      rw [joinCh, splitCh_append sep x _ (hsep x (List.mem_cons_self x _))]
      rw [ih (by simp) (fun z hz => hsep z (List.mem_cons_of_mem x hz))]

/-- Every character of a join is the separator or from some field. -/
theorem mem_joinCh (sep : Char) (xs : List PyStr) (c : Char)
    (hc : c ∈ joinCh sep xs) : c = sep ∨ ∃ x ∈ xs, c ∈ x := by
  induction xs with
  | nil => simp [joinCh] at hc
  | cons x t ih =>
    cases t with
    | nil =>
      rw [joinCh] at hc
      exact Or.inr ⟨x, List.mem_cons_self x [], hc⟩
    | cons y t' =>
      rw [joinCh, List.mem_append] at hc
      rcases hc with hx | hrest
      · exact Or.inr ⟨x, List.mem_cons_self x _, hx⟩
      · rcases List.mem_cons.mp hrest with rfl | htail
        · exact Or.inl rfl
        · rcases ih htail with h | ⟨z, hz, hcz⟩
          · exact Or.inl h
          · exact Or.inr ⟨z, List.mem_cons_of_mem x hz, hcz⟩

/-- A field list with at least two entries joins to a nonempty line. -/
theorem joinCh_ne_nil (sep : Char) (xs : List PyStr)
    (h : 2 ≤ xs.length) : joinCh sep xs ≠ [] := by
  cases xs with
  | nil => simp at h
  | cons x t =>
    cases t with
    | nil => simp at h
    | cons y t' =>
      rw [joinCh]
      intro hnil
      rcases List.append_eq_nil.mp hnil with ⟨-, h2⟩
      simp at h2

/-- A table cell is writable and re-readable verbatim when it avoids
the tab separator, line breaks, the pandas comment character and the
csv quote character. -/
def SafeCell (c : PyStr) : Prop :=
  ('\t' : Char) ∉ c ∧ ('\n' : Char) ∉ c ∧ ('\r' : Char) ∉ c ∧
  ('#' : Char) ∉ c ∧ ('"' : Char) ∉ c

instance (c : PyStr) : Decidable (SafeCell c) := by
  unfold SafeCell; infer_instance

/-- A metadata entry survives the "# key=value" encoding when key and
value avoid tabs, line breaks (both '\n' and '\r': the readers open
the file in text mode, where universal newlines also end a line at a
bare carriage return) and "=", and carry no surrounding whitespace
(read_jams_tsv_header_dict strips both ends). -/
def SafeMdEntry (k v : PyStr) : Prop :=
  ('\t' : Char) ∉ k ∧ ('\t' : Char) ∉ v ∧
  ('\n' : Char) ∉ k ∧ ('\n' : Char) ∉ v ∧
  ('\r' : Char) ∉ k ∧ ('\r' : Char) ∉ v ∧
  ('=' : Char) ∉ k ∧ ('=' : Char) ∉ v ∧
  stripWs k = k ∧ stripWs v = v

instance (k v : PyStr) : Decidable (SafeMdEntry k v) := by
  unfold SafeMdEntry; infer_instance

/-- Truncation at '#' is the identity on '#'-free lines. -/
theorem commentTrunc_of_no_hash (l : PyStr) (h : ('#' : Char) ∉ l) :
    commentTrunc l = l := by
  rw [commentTrunc, List.takeWhile_eq_self_iff]
  intro c hc
  have hne : c ≠ '#' := fun he => h (he ▸ hc)
  simpa using hne

/-- The tab-joined line of a list of safe cells contains no '#'. -/
theorem no_hash_joinCh (xs : List PyStr) (hs : ∀ c ∈ xs, SafeCell c) :
    ('#' : Char) ∉ joinCh '\t' xs := by
  intro hmem
  rcases mem_joinCh '\t' xs _ hmem with h | ⟨x, hx, hcx⟩
  · simp at h
  · exact (hs x hx).2.2.2.1 hcx

/-- The tab-joined line of a list of safe cells contains no tab
character inside any field. -/
theorem no_tab_cells (xs : List PyStr) (hs : ∀ c ∈ xs, SafeCell c) :
    ∀ x ∈ xs, ('\t' : Char) ∉ x :=
  fun x hx => (hs x hx).1

/-- The header-dict reader consumes exactly the metadata lines of a
written file and returns the metadata entries verbatim. -/
theorem parseHeaderLines_write (md : List (PyStr × PyStr))
    (header : List PyStr) (rows : List (List PyStr))
    (hmd : ∀ kv ∈ md, SafeMdEntry kv.1 kv.2)
    (hh : 2 ≤ header.length)
    (hhc : ∀ c ∈ header, SafeCell c) :
    parseHeaderLines (writeGameDataTsv md header rows) = some md := by
  induction md with
  | nil =>
    rw [writeGameDataTsv, List.map_nil, List.nil_append, parseHeaderLines]
    have hline := splitCh_joinCh '\t' header
      (by intro hnil; rw [hnil] at hh; simp at hh) (no_tab_cells header hhc)
    have hne := joinCh_ne_nil '\t' header hh
    rw [if_neg (by simpa [List.isEmpty_iff] using hne)]
    rw [hline]
    cases hhd : header with
    | nil => rw [hhd] at hh; simp at hh
    | cons c0 hrest =>
      have hc0 : ('#' : Char) ∉ c0 := by
        have := hhc c0 (hhd ▸ List.mem_cons_self c0 hrest)
        exact this.2.2.2.1
      rw [List.headD_cons]
      cases c0 with
      | nil =>
        cases hrest with
        | nil => rw [hhd] at hh; simp at hh
        | cons c1 hrest' => rw [if_neg (by simp)]
      | cons a c0' =>
        have ha : a ≠ '#' := fun he => hc0 (he ▸ List.mem_cons_self a c0')
        rw [if_neg (by simp [List.take, ha])]
  | cons kv md' ih =>
    obtain ⟨htk, htv, -, -, -, -, hek, hev, hsk, hsv⟩ :=
      hmd kv (List.mem_cons_self kv md')
    have hmd' : ∀ kv' ∈ md', SafeMdEntry kv'.1 kv'.2 :=
      fun kv' h => hmd kv' (List.mem_cons_of_mem kv h)
    rw [writeGameDataTsv, List.map_cons, List.cons_append, parseHeaderLines]
    rw [if_neg (by simp)]
    have hnotab : ('\t' : Char) ∉ '#' :: ' ' :: (kv.1 ++ '=' :: kv.2) := by
      intro hmem
      rcases List.mem_cons.mp hmem with h | hmem1
      · exact absurd h (by decide)
      rcases List.mem_cons.mp hmem1 with h | hmem2
      · exact absurd h (by decide)
      rcases List.mem_append.mp hmem2 with h | hmem3
      · exact htk h
      rcases List.mem_cons.mp hmem3 with h | h
      · exact absurd h (by decide)
      · exact htv h
    rw [splitCh_no_sep '\t' _ hnotab, List.headD_cons]
    have hcond : List.take 2 ('#' :: ' ' :: (kv.1 ++ '=' :: kv.2)) = ['#', ' '] := rfl
    rw [if_pos hcond]
    have hdrop : ('#' :: ' ' :: (kv.1 ++ '=' :: kv.2)).drop 2 = kv.1 ++ '=' :: kv.2 := rfl
    rw [hdrop, splitCh_append '=' kv.1 kv.2 hek, splitCh_no_sep '=' kv.2 hev]
    have hrec : parseHeaderLines (writeGameDataTsv md' header rows) = some md' :=
      ih hmd'
    rw [writeGameDataTsv] at hrec
    rw [hrec]
    simp [hsk, hsv]

/-- Duplicate-column mangling leaves a list of pairwise-distinct
names that avoids the already-seen names unchanged. -/
theorem mangleDupeColsAux_of_nodup (names : List PyStr) (seen : List PyStr)
    (hdisj : ∀ n ∈ names, n ∉ seen) (hnodup : names.Nodup) :
    mangleDupeColsAux seen names = names := by
  induction names generalizing seen with
  | nil => rfl
  | cons n rest ih =>
    rw [mangleDupeColsAux]
    have h0 : seen.count n = 0 :=
      List.count_eq_zero.mpr (hdisj n (List.mem_cons_self n rest))
    rw [if_pos h0]
    have hdisj' : ∀ m ∈ rest, m ∉ n :: seen := by
      intro m hm hmem
      rcases List.mem_cons.mp hmem with rfl | hms
      · exact (List.nodup_cons.mp hnodup).1 hm
      · exact hdisj m (List.mem_cons_of_mem n hm) hms
    rw [ih (n :: seen) hdisj' (List.nodup_cons.mp hnodup).2]

/-- Duplicate-column mangling is the identity on a header with
pairwise-distinct column names. -/
theorem mangleDupeCols_of_nodup (names : List PyStr) (h : names.Nodup) :
    mangleDupeCols names = names :=
  mangleDupeColsAux_of_nodup names [] (by simp) h

/-- The table reader recovers the header and data rows of a written
file verbatim, for a header with pairwise-distinct column names. -/
theorem readJamsTsvTable_write (md : List (PyStr × PyStr))
    (header : List PyStr) (rows : List (List PyStr))
    (hh : 2 ≤ header.length)
    (hnodup : header.Nodup)
    (hhc : ∀ c ∈ header, SafeCell c)
    (hrows : ∀ row ∈ rows, row.length = header.length ∧ ∀ c ∈ row, SafeCell c) :
    readJamsTsvTable (writeGameDataTsv md header rows) =
      some (header, rows) := by
  rw [readJamsTsvTable, writeGameDataTsv]
  rw [List.map_append, List.filter_append]
  have hmdnil : (((md.map (fun kv => '#' :: ' ' :: (kv.1 ++ '=' :: kv.2))).map
      commentTrunc).filter (fun l => ¬ l.isEmpty)) = [] := by
    rw [List.filter_eq_nil_iff]
    intro a ha
    rw [List.mem_map] at ha
    obtain ⟨b, hb, rfl⟩ := ha
    rw [List.mem_map] at hb
    obtain ⟨kv, -, rfl⟩ := hb
    have htr : commentTrunc ('#' :: ' ' :: (kv.1 ++ '=' :: kv.2)) = [] := rfl
    simp [htr]
  rw [hmdnil, List.nil_append, List.map_cons, List.map_map]
  have hheadline : commentTrunc (joinCh '\t' header) = joinCh '\t' header :=
    commentTrunc_of_no_hash _ (no_hash_joinCh header hhc)
  have hheadne := joinCh_ne_nil '\t' header hh
  rw [hheadline, List.filter_cons_of_pos (by simpa [List.isEmpty_iff] using hheadne)]
  have hrowlines : (rows.map (commentTrunc ∘ joinCh '\t')).filter
      (fun l => ¬ l.isEmpty) = rows.map (joinCh '\t') := by
    have hmapeq : rows.map (commentTrunc ∘ joinCh '\t') = rows.map (joinCh '\t') := by
      apply List.map_congr_left
      intro row hrow
      exact commentTrunc_of_no_hash _ (no_hash_joinCh row (hrows row hrow).2)
    rw [hmapeq, List.filter_eq_self]
    intro l hl
    rw [List.mem_map] at hl
    obtain ⟨row, hrow, rfl⟩ := hl
    have := joinCh_ne_nil '\t' row ((hrows row hrow).1 ▸ hh)
    simpa [List.isEmpty_iff] using this
  rw [hrowlines]
  have hsplithead := splitCh_joinCh '\t' header
    (by intro hnil; rw [hnil] at hh; simp at hh) (no_tab_cells header hhc)
  have hsplitrows : (rows.map (joinCh '\t')).map (splitCh '\t') = rows := by
    rw [List.map_map]
    have hcongr : ∀ row ∈ rows, (splitCh '\t' ∘ joinCh '\t') row = id row := by
      intro row hrow
      have hne : row ≠ [] := by
        intro hnil
        have hlen := (hrows row hrow).1
        rw [hnil] at hlen
        simp at hlen
        omega
      exact splitCh_joinCh '\t' row hne (no_tab_cells row (hrows row hrow).2)
    rw [List.map_congr_left hcongr, List.map_id]
  show some (mangleDupeCols (splitCh '\t' (joinCh '\t' header)),
    (rows.map (joinCh '\t')).map (splitCh '\t')) = some (header, rows)
  rw [hsplithead, mangleDupeCols_of_nodup header hnodup, hsplitrows]

/-- A metadata dict whose value has leading whitespace, falsifying
the unconditional round trip. -/
def c4BadMd : List (PyStr × PyStr) :=
  [("team_1".toList, ' ' :: "x".toList)]

/-- A two-column jam-table header. -/
def c4Header : List PyStr :=
  ["prd_jam".toList, "Number".toList]

/-- C4 (counterexample): write_game_data_tsv followed by
read_jams_tsv_header_dict does not reproduce every metadata dict: the
reader strips each value, so the value " x" comes back as "x" (a
value containing "=" even crashes the reader).  The claim's
universal round trip is false. -/
theorem c4_tsv_roundtrip_counterexample :
    parseHeaderLines (writeGameDataTsv c4BadMd c4Header []) =
      some [("team_1".toList, "x".toList)] ∧
    some c4BadMd ≠ parseHeaderLines (writeGameDataTsv c4BadMd c4Header []) := by
  refine ⟨by decide, by decide⟩

/-- C4 (amended): the round trip holds for every metadata dict and
jam table that the format can carry: metadata keys and values free of
tabs, line breaks ('\n' and '\r') and "=" and carrying no surrounding
whitespace, and a rectangular table of at least two pairwise-distinct
column names whose cells avoid tabs, '\n', '\r', '#' and '"'
(read_csv mangles duplicate column names, so equal names cannot round
trip).  Reading back then yields exactly the written metadata dict
and exactly the written table (dtype normalization is the identity on
this string-level model). -/
theorem c4_tsv_roundtrip (md : List (PyStr × PyStr)) (header : List PyStr)
    (rows : List (List PyStr))
    (hmd : ∀ kv ∈ md, SafeMdEntry kv.1 kv.2)
    (hh : 2 ≤ header.length)
    (hnodup : header.Nodup)
    (hhc : ∀ c ∈ header, SafeCell c)
    (hrows : ∀ row ∈ rows, row.length = header.length ∧ ∀ c ∈ row, SafeCell c) :
    parseHeaderLines (writeGameDataTsv md header rows) = some md ∧
    readJamsTsvTable (writeGameDataTsv md header rows) = some (header, rows) :=
  ⟨parseHeaderLines_write md header rows hmd hh hhc,
   readJamsTsvTable_write md header rows hh hnodup hhc hrows⟩

/-- A well-behaved metadata dict for the C4 witness. -/
def c4GoodMd : List (PyStr × PyStr) :=
  [("team_1".toList, "AllStars".toList), ("team_2".toList, "Brawlers".toList)]

/-- A one-row jam table for the C4 witness. -/
def c4Rows : List (List PyStr) :=
  [["1:01".toList, "1".toList]]

/-- C4 (witness): the amended round trip applied to a concrete
metadata dict and one-row table. -/
theorem c4_tsv_roundtrip_witness :
    parseHeaderLines (writeGameDataTsv c4GoodMd c4Header c4Rows) =
      some c4GoodMd ∧
    readJamsTsvTable (writeGameDataTsv c4GoodMd c4Header c4Rows) =
      some (c4Header, c4Rows) :=
  c4_tsv_roundtrip c4GoodMd c4Header c4Rows (by decide) (by decide)
    (by decide) (by decide) (by decide)

end Jamstats
